import Mathlib

/-!
Verification of the Grip Invest backend core logic: password strength
scoring, the credential reset lifecycle, the investment engine and the
portfolio aggregator.  Definitions are shallow embeddings of the
TypeScript source (`server/src/routes/investments.ts`,
`server/src/routes/auth.ts`, `utils/auth.ts` / `utils/email.ts`).
Monetary amounts and yields are modelled as rationals, time as natural
numbers (seconds), and the relational store as Lean lists.
-/

namespace GripInvest

/-! ## Password strength (utils/auth.ts `validatePasswordStrength`) -/

structure PasswordStrength where
  isValid : Bool
  score : Int
  feedback : List String
deriving Repr, DecidableEq

/-- The punctuation set of the source regex `[!@#$%^&*(),.?":{}|<>]`. -/
def specialChars : List Char := "!@#$%^&*(),.?\":\x7b\x7d|<>".data

/-- The fixed block-list `['password', '123456', 'qwerty', 'abc123', 'password123']`. -/
def commonPasswords : List (List Char) :=
  ["password".data, "123456".data, "qwerty".data, "abc123".data, "password123".data]

/-- JS `String.prototype.includes`: does `needle` occur contiguously in the haystack? -/
def containsSub (needle : List Char) : List Char → Bool
  | [] => needle.isEmpty
  | c :: rest => needle.isPrefixOf (c :: rest) || containsSub needle rest

/-- Regex test `/[A-Z]/`. -/
def hasUpper (p : List Char) : Bool := p.any fun c => decide ('A' ≤ c) && decide (c ≤ 'Z')

/-- Regex test `/[a-z]/`. -/
def hasLower (p : List Char) : Bool := p.any fun c => decide ('a' ≤ c) && decide (c ≤ 'z')

/-- Regex test `/\d/`. -/
def hasDigit (p : List Char) : Bool := p.any fun c => decide ('0' ≤ c) && decide (c ≤ '9')

/-- Regex test for the punctuation set. -/
def hasSpecial (p : List Char) : Bool := p.any fun c => specialChars.contains c

/-- `commonPasswords.some(common => password.toLowerCase().includes(common))`.
JS `toLowerCase` on the relevant ASCII range agrees with `Char.toLower`. -/
def hasCommonPattern (p : List Char) : Bool :=
  commonPasswords.any fun w => containsSub w (p.map Char.toLower)

/-- Shallow embedding of `validatePasswordStrength` from `utils/auth.ts`:
five additive checks, a block-list deduction, clamping of the reported
score to [0,5], and validity computed from the unclamped accumulator. -/
def validatePasswordStrength (password : List Char) : PasswordStrength :=
  let lengthOk := decide (8 ≤ password.length)
  let score : Int :=
    (if lengthOk then 1 else 0) + (if hasUpper password then 1 else 0)
      + (if hasLower password then 1 else 0) + (if hasDigit password then 1 else 0)
      + (if hasSpecial password then 1 else 0)
      - (if hasCommonPattern password then 1 else 0)
  let feedback : List String :=
    (if lengthOk then [] else ["Password must be at least 8 characters long"])
      ++ (if hasUpper password then [] else ["Add uppercase letters"])
      ++ (if hasLower password then [] else ["Add lowercase letters"])
      ++ (if hasDigit password then [] else ["Add numbers"])
      ++ (if hasSpecial password then [] else ["Add special characters"])
      ++ (if hasCommonPattern password then ["Avoid common password patterns"] else [])
  { isValid := decide (4 ≤ score) && decide (8 ≤ password.length)
    score := max 0 (min 5 score)
    feedback := if feedback.isEmpty then ["Strong password!"] else feedback }

/-- The raw (unclamped) score of §4.1 of the spec: one point per satisfied
check, minus one for a block-listed substring. -/
def rawScore (password : List Char) : Int :=
  (if 8 ≤ password.length then 1 else 0) + (if hasUpper password then 1 else 0)
    + (if hasLower password then 1 else 0) + (if hasDigit password then 1 else 0)
    + (if hasSpecial password then 1 else 0)
    - (if hasCommonPattern password then 1 else 0)

/-! ## Investment engine (routes/investments.ts) -/

/-- A row of `investment_products` (drizzle schema).  Decimal columns are
modelled as rationals; `maxInvestment` is nullable. -/
structure InvestmentProduct where
  id : String
  name : String
  investmentType : String
  tenureMonths : Nat
  annualYield : Rat
  riskLevel : String
  minInvestment : Rat
  maxInvestment : Option Rat
deriving Repr, DecidableEq

/-- A civil date `(year, month 0–11, day 1–31)`, the part of a JS `Date`
the maturity computation uses. -/
structure CivilDate where
  year : Int
  month : Nat
  day : Nat
deriving Repr, DecidableEq

def isLeapYear (y : Int) : Bool := (y % 4 == 0 && y % 100 != 0) || y % 400 == 0

def daysInMonth (y : Int) (m : Nat) : Nat :=
  if m = 1 then (if isLeapYear y then 29 else 28)
  else if m = 3 ∨ m = 5 ∨ m = 8 ∨ m = 10 then 30
  else 31

/-- JS `date.setMonth(date.getMonth() + tenure)`: month arithmetic with
day-of-month overflow normalised into the following month (native `Date`
semantics; at most one carry since the excess is at most 3 days). -/
def setMonthAdd (d : CivilDate) (tenure : Nat) : CivilDate :=
  let total : Nat := d.month + tenure
  let y : Int := d.year + (total / 12 : Nat)
  let m : Nat := total % 12
  if d.day ≤ daysInMonth y m then ⟨y, m, d.day⟩
  else if m = 11 then ⟨y + 1, 0, d.day - daysInMonth y m⟩
  else ⟨y, m + 1, d.day - daysInMonth y m⟩

/-- A row of `investments`. -/
structure InvestmentRow where
  id : String
  userId : String
  productId : String
  amount : Rat
  investedAt : Nat
  status : String
  expectedReturn : Option Rat
  maturityDate : Option CivilDate
deriving Repr, DecidableEq

/-- The relational store seen by the investments routes. -/
structure InvestStore where
  products : List InvestmentProduct
  investments : List InvestmentRow
deriving Repr, DecidableEq

/-- The `investment` object of the 201 response body: `id` comes from the
re-select (`createdInvestment[0]?.id`, hence optional), the rest from the
locally computed values. -/
structure CreatedInvestmentView where
  id : Option String
  amount : Rat
  expectedReturn : Rat
  maturityDate : CivilDate
  product : InvestmentProduct
deriving Repr, DecidableEq

inductive CreateResult
  | unauthenticated
  | validationError
  | productNotFound
  | belowMinimum (minInvestment : Rat)
  | aboveMaximum (maxInvestment : Rat)
  | created (v : CreatedInvestmentView)
deriving Repr, DecidableEq

/-- `if (productData.maxInvestment && validatedData.amount > Number(productData.maxInvestment))`:
a null `maxInvestment` is falsy, so the bound applies only when set. -/
def exceedsMax (p : InvestmentProduct) (amount : Rat) : Bool :=
  match p.maxInvestment with
  | some m => decide (m < amount)
  | none => false

/-- Combine the current row with the best of the remaining rows, keeping
the earlier row on ties. -/
def newerOf (r : InvestmentRow) : Option InvestmentRow → Option InvestmentRow
  | none => some r
  | some b => if b.investedAt ≤ r.investedAt then some r else some b

/-- `ORDER BY invested_at DESC LIMIT 1` followed by `[0]?`: a row with
maximal `investedAt`; among ties the earliest row in table order is kept
(SQL leaves the tie order unspecified; this models one allowed outcome). -/
def newestFirst : List InvestmentRow → Option InvestmentRow
  | [] => none
  | r :: rs => newerOf r (newestFirst rs)

/-- Shallow embedding of the `POST /investments` handler.  `session` is the
verified bearer-token payload (`none` = missing/invalid token), `today`/`now`
the request time as a civil date and in seconds, `newId` the UUID the store
generates for the inserted row.  The zod `investmentSchema` contributes the
positivity and ≥ 1000 checks on `amount` (its uuid-format check on
`productId` is elided: every catalogued id is a generated UUID). -/
def createInvestment (st : InvestStore) (session : Option String)
    (productId : String) (amount : Rat) (today : CivilDate) (now : Nat)
    (newId : String) : CreateResult × InvestStore :=
  match session with
  | none => (.unauthenticated, st)
  | some userId =>
    if ¬ (0 < amount ∧ 1000 ≤ amount) then (.validationError, st)
    else
      match st.products.find? (fun p => p.id == productId) with
      | none => (.productNotFound, st)
      | some productData =>
        if amount < productData.minInvestment then
          (.belowMinimum productData.minInvestment, st)
        else if exceedsMax productData amount then
          (.aboveMaximum (productData.maxInvestment.getD 0), st)
        else
          let expectedReturn :=
            amount * productData.annualYield * (productData.tenureMonths : Rat) / (100 * 12)
          let maturityDate := setMonthAdd today productData.tenureMonths
          let row : InvestmentRow :=
            { id := newId, userId := userId, productId := productId
              amount := amount, investedAt := now, status := "active"
              expectedReturn := some expectedReturn, maturityDate := some maturityDate }
          let st2 : InvestStore := { st with investments := st.investments ++ [row] }
          let createdInvestment :=
            newestFirst (st2.investments.filter (fun r => r.userId == userId))
          (.created { id := createdInvestment.map (fun r => r.id), amount := amount
                      expectedReturn := expectedReturn, maturityDate := maturityDate
                      product := productData }, st2)

/-! ## Portfolio aggregator (GET /investments handler) -/

/-- One element of the `userInvestments` result: an investment row joined
with its product. -/
structure JoinedInvestment where
  id : String
  amount : Rat
  investedAt : Nat
  status : String
  expectedReturn : Option Rat
  product : InvestmentProduct
deriving Repr, DecidableEq

/-- Join one investment row with the catalog row its `productId` resolves
to (`none` when the reference dangles: the inner join drops the row). -/
def joinRow (ps : List InvestmentProduct) (r : InvestmentRow) : Option JoinedInvestment :=
  (ps.find? (fun p => p.id == r.productId)).map fun p =>
    { id := r.id, amount := r.amount, investedAt := r.investedAt
      status := r.status, expectedReturn := r.expectedReturn, product := p }

/-- The `WHERE userId = ... INNER JOIN products` part of the query. -/
def userJoinedRows (st : InvestStore) (userId : String) : List JoinedInvestment :=
  (st.investments.filter (fun r => r.userId == userId)).filterMap (joinRow st.products)

/-- Stable insertion into a descending-by-`investedAt` list. -/
def insertDesc (x : JoinedInvestment) : List JoinedInvestment → List JoinedInvestment
  | [] => [x]
  | y :: ys => if y.investedAt < x.investedAt then x :: y :: ys else y :: insertDesc x ys

/-- `ORDER BY invested_at DESC` (a stable descending sort; SQL fixes only
the ordering, not the algorithm). -/
def sortByInvestedAtDesc : List JoinedInvestment → List JoinedInvestment
  | [] => []
  | x :: xs => insertDesc x (sortByInvestedAtDesc xs)

/-- The `portfolio` summary object; the distributions are JS objects,
modelled as association lists in insertion order. -/
structure PortfolioSummary where
  totalInvested : Rat
  totalExpectedReturn : Rat
  activeInvestmentsCount : Nat
  averageYield : Rat
  riskDistribution : List (String × Rat)
  typeDistribution : List (String × Rat)
deriving Repr, DecidableEq

/-- `dist[key] = (dist[key] || 0) + Number(inv.amount)` on a JS object:
update the existing entry in place, or append a new one. -/
def bumpKey (m : List (String × Rat)) (k : String) (v : Rat) : List (String × Rat) :=
  if m.any (fun kv => kv.1 == k) then
    m.map (fun kv => if kv.1 == k then (kv.1, kv.2 + v) else kv)
  else m ++ [(k, v)]

/-- The `forEach` accumulation of a distribution; the `if (key)` truthiness
guard skips only the empty string (the enum columns are non-null). -/
def accumDistribution (key : JoinedInvestment → String)
    (rows : List JoinedInvestment) : List (String × Rat) :=
  rows.foldl (fun m inv => if key inv ≠ "" then bumpKey m (key inv) inv.amount else m) []

/-- Shallow embedding of the `GET /investments` handler body after
authentication: the joined, ordered investment list plus the computed
portfolio summary (`none` = 401). -/
def getPortfolio (st : InvestStore) (session : Option String) :
    Option (List JoinedInvestment × PortfolioSummary) :=
  match session with
  | none => none
  | some userId =>
    let userInvestments := sortByInvestedAtDesc (userJoinedRows st userId)
    let totalInvested := userInvestments.foldl (fun s inv => s + inv.amount) 0
    let activeInvestments := userInvestments.filter (fun inv => inv.status == "active")
    let totalExpectedReturn :=
      activeInvestments.foldl (fun s inv => s + inv.expectedReturn.getD 0) 0
    let averageYield :=
      if 0 < userInvestments.length then
        userInvestments.foldl (fun s inv => s + inv.product.annualYield) 0
          / (userInvestments.length : Rat)
      else 0
    some (userInvestments,
      { totalInvested := totalInvested
        totalExpectedReturn := totalExpectedReturn
        activeInvestmentsCount := activeInvestments.length
        averageYield := averageYield
        riskDistribution := accumDistribution (fun inv => inv.product.riskLevel) userInvestments
        typeDistribution := accumDistribution (fun inv => inv.product.investmentType) userInvestments })

/-! ## Credential reset lifecycle (routes/auth.ts) -/

/-- A row of `users`. -/
structure UserRow where
  id : String
  firstName : String
  lastName : Option String
  email : String
  passwordHash : String
  riskAppetite : String
  createdAt : Nat
  updatedAt : Nat
deriving Repr, DecidableEq

/-- A row of `password_reset_tokens`; `isUsed` is the `'0'/'1'` enum. -/
structure ResetTokenRow where
  id : String
  email : String
  token : String
  expiresAt : Nat
  isUsed : String
  createdAt : Nat
deriving Repr, DecidableEq

/-- The relational store seen by the auth routes. -/
structure AuthStore where
  users : List UserRow
  tokens : List ResetTokenRow
deriving Repr, DecidableEq

inductive ResetResult
  | validationError
  | weakPassword (feedback : List String) (score : Int)
  | invalidOrExpiredCode
  | userNotFound
  | success
deriving Repr, DecidableEq

/-- The token query of `POST /auth/reset-password`: email AND code AND
unused AND `expiresAt > currentTime` (strict). -/
def tokenMatches (email code : String) (now : Nat) (t : ResetTokenRow) : Bool :=
  t.email == email && t.token == code && t.isUsed == "0" && decide (now < t.expiresAt)

/-- Shallow embedding of the `POST /auth/reset-password` handler.  `now` is
the request time in seconds, `newHash` the bcrypt hash produced for
`newPassword`.  The zod `resetPasswordSchema` contributes the 6-character
code and ≥ 8-character password checks (its email-format check is elided). -/
def resetPassword (st : AuthStore) (email code newPassword : String)
    (now : Nat) (newHash : String) : ResetResult × AuthStore :=
  if ¬ (code.length = 6 ∧ 8 ≤ newPassword.length) then (.validationError, st)
  else
    let pv := validatePasswordStrength newPassword.data
    if pv.isValid = false then (.weakPassword pv.feedback pv.score, st)
    else
      match st.tokens.find? (tokenMatches email code now) with
      | none => (.invalidOrExpiredCode, st)
      | some resetToken =>
        match st.users.find? (fun u => u.email == email) with
        | none => (.userNotFound, st)
        | some _ =>
          let users2 := st.users.map fun u =>
            if u.email == email then { u with passwordHash := newHash, updatedAt := now } else u
          let tokens2 := st.tokens.map fun t =>
            if t.id == resetToken.id then { t with isUsed := "1" } else t
          (.success, { users := users2, tokens := tokens2 })

inductive ForgotResult
  | userNotFound
  | notificationFailed
  | success
deriving Repr, DecidableEq

/-- The `password_reset_tokens` row inserted by forgot-password: the given
code, a 15-minute expiry from issuance, unused. -/
def freshToken (email code tokId : String) (now : Nat) : ResetTokenRow :=
  { id := tokId, email := email, token := code
    expiresAt := now + 15 * 60, isUsed := "0", createdAt := now }

/-- Shallow embedding of the `POST /auth/forgot-password` handler.
`resetCode` models the `generateResetCode()` output (a 6-digit string),
`newTokenId` the UUID generated for the inserted row, and `emailSent` the
boolean returned by `EmailService.sendPasswordResetCode`.  The token row is
inserted before the dispatch, and a failed dispatch returns the 500 error
without removing it. -/
def forgotPassword (st : AuthStore) (email : String) (now : Nat)
    (resetCode : String) (newTokenId : String) (emailSent : Bool) :
    ForgotResult × AuthStore :=
  match st.users.find? (fun u => u.email == email) with
  | none => (.userNotFound, st)
  | some _ =>
    let tok : ResetTokenRow := freshToken email resetCode newTokenId now
    let st2 : AuthStore := { st with tokens := st.tokens ++ [tok] }
    if emailSent then (.success, st2) else (.notificationFailed, st2)

/-! ## Concrete stores used to instantiate the theorems -/

/-- A catalogued product matching the spec's round-trip example:
annualYield 8.5 %, tenure 24 months, default bounds. -/
def demoProduct : InvestmentProduct :=
  { id := "p1", name := "Corporate Bond", investmentType := "bond"
    tenureMonths := 24, annualYield := 17/2, riskLevel := "moderate"
    minInvestment := 1000, maxInvestment := none }

def demoDate : CivilDate := ⟨2025, 0, 15⟩

def demoStore : InvestStore := { products := [demoProduct], investments := [] }

/-- A catalog row violating the unenforced `maxInvestment ≥ minInvestment`
invariant (the schema does not rule it out). -/
def cexProduct : InvestmentProduct :=
  { id := "p2", name := "Inverted Bounds", investmentType := "fd"
    tenureMonths := 12, annualYield := 7, riskLevel := "low"
    minInvestment := 5000, maxInvestment := some 2000 }

def cexStore : InvestStore := { products := [cexProduct], investments := [] }

/-- A store with one prior investment of the same user, invested before
the new request time. -/
def demoStoreWithRow : InvestStore :=
  { products := [demoProduct]
    investments := [{ id := "i0", userId := "u1", productId := "p1", amount := 2000
                      investedAt := 50, status := "active", expectedReturn := some 340
                      maturityDate := none }] }

def scenarioProductA : InvestmentProduct :=
  { id := "pa", name := "Gov Bond", investmentType := "bond"
    tenureMonths := 12, annualYield := 6, riskLevel := "low"
    minInvestment := 1000, maxInvestment := none }

def scenarioProductB : InvestmentProduct :=
  { id := "pb", name := "Equity Fund", investmentType := "mf"
    tenureMonths := 24, annualYield := 12, riskLevel := "high"
    minInvestment := 1000, maxInvestment := none }

/-- Two investments of one user in products of different risk levels,
amounts 1000 and 2000 (the spec's distribution scenario). -/
def scenarioStore : InvestStore :=
  { products := [scenarioProductA, scenarioProductB]
    investments :=
      [{ id := "i1", userId := "u1", productId := "pa", amount := 1000
         investedAt := 10, status := "active", expectedReturn := some 60
         maturityDate := none },
       { id := "i2", userId := "u1", productId := "pb", amount := 2000
         investedAt := 20, status := "active", expectedReturn := some 480
         maturityDate := none }] }

/-- The joined view of the scenario's first investment. -/
def scenarioJoinedA : JoinedInvestment :=
  { id := "i1", amount := 1000, investedAt := 10, status := "active"
    expectedReturn := some 60, product := scenarioProductA }

/-- The joined view of the scenario's second investment. -/
def scenarioJoinedB : JoinedInvestment :=
  { id := "i2", amount := 2000, investedAt := 20, status := "active"
    expectedReturn := some 480, product := scenarioProductB }

def demoUser : UserRow :=
  { id := "u1", firstName := "Asha", lastName := none, email := "asha@example.com"
    passwordHash := "h0", riskAppetite := "moderate", createdAt := 0, updatedAt := 0 }

/-- A token issued at T = 1000 with the 15-minute expiry. -/
def expiredTokenStore : AuthStore :=
  { users := [demoUser]
    tokens := [{ id := "t1", email := "asha@example.com", token := "654321"
                 expiresAt := 1000 + 15 * 60, isUsed := "0", createdAt := 1000 }] }

def liveToken1 : ResetTokenRow :=
  { id := "t1", email := "asha@example.com", token := "654321"
    expiresAt := 1900, isUsed := "0", createdAt := 1000 }

def liveToken2 : ResetTokenRow :=
  { id := "t2", email := "asha@example.com", token := "111222"
    expiresAt := 1900, isUsed := "0", createdAt := 1005 }

/-- Two live tokens for the same email; a reset consumes only the matched one. -/
def liveTokenStore : AuthStore :=
  { users := [demoUser], tokens := [liveToken1, liveToken2] }

/-- A user with no outstanding tokens (forgot-password start state). -/
def forgotStore : AuthStore := { users := [demoUser], tokens := [] }

end GripInvest

namespace GripInvest

/-! ## Helper lemmas -/

theorem validatePasswordStrength_isValid_length {p : List Char}
    (h : (validatePasswordStrength p).isValid = true) : 8 ≤ p.length := by
  simp only [validatePasswordStrength, Bool.and_eq_true, decide_eq_true_eq] at h
  exact h.2

/-- **C5.** For every password `p`, the reported score is the raw additive
score clamped to `[0,5]`, and `isValid` holds iff `p` has length ≥ 8 and the
computed score is ≥ 4 (equivalently for the clamped reported score, since the
raw score never exceeds 5). -/
theorem C5_password_score_spec (p : List Char) :
    (validatePasswordStrength p).score = max 0 (min 5 (rawScore p)) ∧
    (0 ≤ (validatePasswordStrength p).score ∧ (validatePasswordStrength p).score ≤ 5) ∧
    ((validatePasswordStrength p).isValid = true ↔ 8 ≤ p.length ∧ 4 ≤ rawScore p) ∧
    ((validatePasswordStrength p).isValid = true ↔
      8 ≤ p.length ∧ 4 ≤ (validatePasswordStrength p).score) := by
  have hscore : (validatePasswordStrength p).score = max 0 (min 5 (rawScore p)) := by
    simp [validatePasswordStrength, rawScore]
  have hvalid : (validatePasswordStrength p).isValid =
      (decide (4 ≤ rawScore p) && decide (8 ≤ p.length)) := by
    simp [validatePasswordStrength, rawScore]
  have hraw_le : rawScore p ≤ 5 := by
    unfold rawScore
    split_ifs <;> omega
  refine ⟨hscore, ?_, ?_, ?_⟩
  · constructor
    · rw [hscore]; exact le_max_left 0 _
    · rw [hscore]
      rcases le_or_lt (rawScore p) 5 with h | h
      · simp [min_eq_right h]; omega
      · omega
  · rw [hvalid]
    simp [and_comm]
  · rw [hvalid, hscore]
    constructor
    · intro h
      simp only [Bool.and_eq_true, decide_eq_true_eq] at h
      refine ⟨h.2, ?_⟩
      have := h.1
      omega
    · intro ⟨h1, h2⟩
      simp only [Bool.and_eq_true, decide_eq_true_eq]
      exact ⟨by omega, h1⟩

/-- **C6.** `validatePasswordStrength "Password123!"` scores 4, is valid, and
its feedback is exactly the common-pattern warning: non-empty, containing the
warning, and not `["Strong password!"]`. -/
theorem C6_Password123_boundary :
    (validatePasswordStrength "Password123!".data).score = 4 ∧
    (validatePasswordStrength "Password123!".data).isValid = true ∧
    (validatePasswordStrength "Password123!".data).feedback ≠ [] ∧
    "Avoid common password patterns" ∈ (validatePasswordStrength "Password123!".data).feedback ∧
    (validatePasswordStrength "Password123!".data).feedback ≠ ["Strong password!"] := by
  decide

/-- **C1.** Every create-investment request that passes authentication,
schema validation, product lookup and the amount bounds persists and
returns `expectedReturn = amount * annualYield * tenureMonths / (100 * 12)`. -/
theorem C1_expected_return_formula
    (st : InvestStore) (uid productId newId : String) (amount : Rat)
    (today : CivilDate) (now : Nat) (p : InvestmentProduct)
    (hamt : 0 < amount ∧ 1000 ≤ amount)
    (hfind : st.products.find? (fun q => q.id == productId) = some p)
    (hmin : ¬ amount < p.minInvestment)
    (hmax : exceedsMax p amount = false) :
    ∃ v row,
      (createInvestment st (some uid) productId amount today now newId).1 =
        CreateResult.created v ∧
      (createInvestment st (some uid) productId amount today now newId).2.investments =
        st.investments ++ [row] ∧
      v.expectedReturn = amount * p.annualYield * (p.tenureMonths : Rat) / (100 * 12) ∧
      row.expectedReturn =
        some (amount * p.annualYield * (p.tenureMonths : Rat) / (100 * 12)) := by
  simp only [createInvestment, hfind]
  rw [if_neg (not_not_intro hamt), if_neg hmin, if_neg (by simp [hmax])]
  exact ⟨_, _, rfl, rfl, rfl, rfl⟩

/-- **C1 witness.** The spec round-trip: amount 50000 on a product with
annualYield 8.5 and tenureMonths 24 gives expectedReturn 8500, both in the
response body and on the inserted row. -/
theorem C1_expected_return_formula_witness :
    ∃ v row,
      (createInvestment demoStore (some "u1") "p1" 50000 demoDate 100 "i1").1 =
        CreateResult.created v ∧
      (createInvestment demoStore (some "u1") "p1" 50000 demoDate 100 "i1").2.investments =
        demoStore.investments ++ [row] ∧
      v.expectedReturn = 8500 ∧ row.expectedReturn = some 8500 := by
  obtain ⟨v, row, h1, h2, h3, h4⟩ :=
    C1_expected_return_formula demoStore "u1" "p1" "i1" 50000 demoDate 100 demoProduct
      ⟨by norm_num, by norm_num⟩ rfl (by norm_num [demoProduct]) rfl
  refine ⟨v, row, h1, h2, ?_, ?_⟩
  · rw [h3]; norm_num [demoProduct]
  · rw [h4]; norm_num [demoProduct]

/-- **C2 counterexample.** On a catalogued product with
`minInvestment = 5000` and `maxInvestment = 2000` (the schema does not
enforce `max ≥ min`), a valid request with amount 3000 satisfies
"maxInvestment is set and amount > maxInvestment", yet the code fails
`BelowMinimum`, not `AboveMaximum`: the claimed iff for `AboveMaximum` is
false at this input. -/
theorem C2_amount_bounds_counterexample :
    cexProduct.maxInvestment = some 2000 ∧ (2000 : Rat) < 3000 ∧
    (0 : Rat) < 3000 ∧ (1000 : Rat) ≤ 3000 ∧
    cexStore.products.find? (fun q => q.id == "p2") = some cexProduct ∧
    (createInvestment cexStore (some "u1") "p2" 3000 demoDate 0 "i1").1 =
      CreateResult.belowMinimum 5000 ∧
    CreateResult.belowMinimum 5000 ≠ CreateResult.aboveMaximum 2000 := by
  refine ⟨rfl, by norm_num, by norm_num, by norm_num, rfl, ?_, by intro h; cases h⟩
  have hfind : cexStore.products.find? (fun q => q.id == "p2") = some cexProduct := rfl
  simp only [createInvestment, hfind]
  rw [if_neg (not_not_intro ⟨by norm_num, by norm_num⟩),
    if_pos (show (3000 : Rat) < cexProduct.minInvestment by norm_num [cexProduct])]
  norm_num [cexProduct]

/-- **C2 (amended).** For a valid session, schema-valid amount and existing
product: the request fails `BelowMinimum` iff `amount < minInvestment`; it
fails `AboveMaximum` iff `amount ≥ minInvestment` AND `maxInvestment` is set
AND `amount > maxInvestment` (the below-minimum check takes precedence); and
otherwise it succeeds — in particular `amount = minInvestment` succeeds, and
with `maxInvestment` unset every amount ≥ minInvestment is accepted. -/
theorem C2_amount_bounds_amended
    (st : InvestStore) (uid productId newId : String) (amount : Rat)
    (today : CivilDate) (now : Nat) (p : InvestmentProduct)
    (hamt : 0 < amount ∧ 1000 ≤ amount)
    (hfind : st.products.find? (fun q => q.id == productId) = some p) :
    ((createInvestment st (some uid) productId amount today now newId).1 =
        CreateResult.belowMinimum p.minInvestment ↔ amount < p.minInvestment) ∧
    ((∃ m, (createInvestment st (some uid) productId amount today now newId).1 =
        CreateResult.aboveMaximum m) ↔
      (p.minInvestment ≤ amount ∧ ∃ m, p.maxInvestment = some m ∧ m < amount)) ∧
    ((p.minInvestment ≤ amount ∧ ∀ m, p.maxInvestment = some m → amount ≤ m) →
      ∃ v, (createInvestment st (some uid) productId amount today now newId).1 =
        CreateResult.created v) := by
  simp only [createInvestment, hfind]
  rw [if_neg (not_not_intro hamt)]
  by_cases hmin : amount < p.minInvestment
  · rw [if_pos hmin]
    refine ⟨by simp [hmin], ?_, ?_⟩
    · constructor
      · rintro ⟨m, hm⟩; cases hm
      · rintro ⟨hge, -⟩; exact absurd hmin (not_lt.mpr hge)
    · rintro ⟨hge, -⟩; exact absurd hmin (not_lt.mpr hge)
  · rw [if_neg hmin]
    by_cases hmax : exceedsMax p amount = true
    · rw [if_pos hmax]
      refine ⟨iff_of_false (by simp) hmin, ?_, ?_⟩
      · constructor
        · rintro ⟨m, -⟩
          refine ⟨not_lt.mp hmin, ?_⟩
          unfold exceedsMax at hmax
          cases hpm : p.maxInvestment with
          | none => rw [hpm] at hmax; cases hmax
          | some m' =>
            rw [hpm] at hmax
            exact ⟨m', rfl, by simpa using hmax⟩
        · intro _; exact ⟨p.maxInvestment.getD 0, rfl⟩
      · rintro ⟨-, hall⟩
        unfold exceedsMax at hmax
        cases hpm : p.maxInvestment with
        | none => rw [hpm] at hmax; cases hmax
        | some m' =>
          rw [hpm] at hmax
          have := hall m' hpm
          simp at hmax
          exact absurd hmax (not_lt.mpr this)
    · rw [if_neg hmax]
      refine ⟨iff_of_false (by simp) hmin, ?_, fun _ => ⟨_, rfl⟩⟩
      constructor
      · rintro ⟨m, hm⟩; cases hm
      · rintro ⟨-, m', hm', hlt⟩
        exact absurd (by unfold exceedsMax; rw [hm']; simpa using hlt) hmax

/-- **C2 witness.** On the demo product (`minInvestment = 1000`,
`maxInvestment` unset) an amount exactly equal to the minimum is accepted. -/
theorem C2_amount_bounds_amended_witness :
    ∃ v, (createInvestment demoStore (some "u1") "p1" 1000 demoDate 0 "i1").1 =
      CreateResult.created v := by
  have h := C2_amount_bounds_amended demoStore "u1" "p1" "i1" 1000 demoDate 0 demoProduct
    ⟨by norm_num, by norm_num⟩ rfl
  exact h.2.2 ⟨by norm_num [demoProduct], by intro m hm; simp [demoProduct] at hm⟩

end GripInvest

namespace GripInvest

theorem newestFirst_append_strict (l : List InvestmentRow) (row : InvestmentRow)
    (h : ∀ r ∈ l, r.investedAt < row.investedAt) :
    newestFirst (l ++ [row]) = some row := by
  induction l with
  | nil => rfl
  | cons x xs ih =>
    have hx := h x (List.mem_cons_self x xs)
    have ih' := ih fun r hr => h r (List.mem_cons_of_mem x hr)
    simp only [List.cons_append, newestFirst, List.append_eq, ih', newerOf]
    rw [if_neg (not_le.mpr hx)]

theorem newestFirst_filter_append (l : List InvestmentRow) (row : InvestmentRow)
    (uid : String) (hrow : row.userId = uid)
    (hfresh : ∀ r ∈ l, r.userId = uid → r.investedAt < row.investedAt) :
    newestFirst ((l ++ [row]).filter (fun r => r.userId == uid)) = some row := by
  rw [List.filter_append, show [row].filter (fun r => r.userId == uid) = [row] by simp [hrow]]
  apply newestFirst_append_strict
  intro r hr
  exact hfresh r (List.mem_of_mem_filter hr) (by simpa using List.of_mem_filter hr)

/-- **C9.** A successful create-investment response returns the row this
request inserted: the re-selected id is the new row's id, and the returned
amount, expectedReturn, maturityDate and nested product are exactly the
values computed for this request from the product as read at creation time
(assuming the user's earlier rows carry strictly earlier `investedAt`
times, i.e. a monotone clock without same-instant writes). -/
theorem C9_create_response_identifies_row
    (st : InvestStore) (uid productId newId : String) (amount : Rat)
    (today : CivilDate) (now : Nat) (p : InvestmentProduct)
    (hamt : 0 < amount ∧ 1000 ≤ amount)
    (hfind : st.products.find? (fun q => q.id == productId) = some p)
    (hmin : ¬ amount < p.minInvestment)
    (hmax : exceedsMax p amount = false)
    (hfresh : ∀ r ∈ st.investments, r.userId = uid → r.investedAt < now) :
    ∃ v row,
      (createInvestment st (some uid) productId amount today now newId).1 =
        CreateResult.created v ∧
      (createInvestment st (some uid) productId amount today now newId).2.investments =
        st.investments ++ [row] ∧
      v.id = some row.id ∧ row.id = newId ∧
      v.amount = amount ∧ row.amount = amount ∧
      v.expectedReturn = amount * p.annualYield * (p.tenureMonths : Rat) / (100 * 12) ∧
      row.expectedReturn = some v.expectedReturn ∧
      v.maturityDate = setMonthAdd today p.tenureMonths ∧
      row.maturityDate = some v.maturityDate ∧
      v.product = p ∧
      row.userId = uid ∧ row.productId = productId ∧
      row.status = "active" ∧ row.investedAt = now := by
  simp only [createInvestment, hfind]
  rw [if_neg (not_not_intro hamt), if_neg hmin, if_neg (by simp [hmax])]
  refine ⟨_, _, rfl, rfl, ?_, rfl, rfl, rfl, rfl, rfl, rfl, rfl, rfl, rfl, rfl, rfl, rfl⟩
  rw [newestFirst_filter_append st.investments _ uid rfl (fun r hr h => hfresh r hr h)]
  rfl

/-- **C9 witness.** With one prior investment of the same user (invested at
time 50), the request at time 100 returns id `"i9"`, the freshly inserted
row's id, together with the product snapshot read at creation. -/
theorem C9_create_response_identifies_row_witness :
    ∃ v row,
      (createInvestment demoStoreWithRow (some "u1") "p1" 50000 demoDate 100 "i9").1 =
        CreateResult.created v ∧
      (createInvestment demoStoreWithRow (some "u1") "p1" 50000 demoDate 100 "i9").2.investments =
        demoStoreWithRow.investments ++ [row] ∧
      v.id = some "i9" ∧ v.product = demoProduct := by
  obtain ⟨v, row, h1, h2, h3, h4, -, -, -, -, -, -, h11, -⟩ :=
    C9_create_response_identifies_row demoStoreWithRow "u1" "p1" "i9" 50000 demoDate 100
      demoProduct ⟨by norm_num, by norm_num⟩ rfl (by norm_num [demoProduct]) rfl
      (by
        intro r hr hu
        simp only [demoStoreWithRow, List.mem_singleton] at hr
        subst hr
        norm_num)
  exact ⟨v, row, h1, h2, by rw [h3, h4], h11⟩

end GripInvest

namespace GripInvest

/-- **C7.** A reset with a strong new password succeeds only when a stored
token row matches the email AND the code AND is unused AND expires strictly
after the current time; when no row matches, the handler returns
`InvalidOrExpiredCode` and leaves the store untouched. -/
theorem C7_reset_requires_live_token
    (st : AuthStore) (email code newPassword : String) (now : Nat) (newHash : String)
    (hcode : code.length = 6)
    (hstrong : (validatePasswordStrength newPassword.data).isValid = true) :
    ((resetPassword st email code newPassword now newHash).1 = ResetResult.success →
      ∃ t ∈ st.tokens, tokenMatches email code now t = true) ∧
    (st.tokens.find? (tokenMatches email code now) = none →
      resetPassword st email code newPassword now newHash =
        (ResetResult.invalidOrExpiredCode, st)) := by
  have hlen : 8 ≤ newPassword.length := validatePasswordStrength_isValid_length hstrong
  simp only [resetPassword]
  rw [if_neg (not_not_intro ⟨hcode, hlen⟩), if_neg (by simp [hstrong])]
  refine ⟨?_, ?_⟩
  · intro hsucc
    cases hfind : st.tokens.find? (tokenMatches email code now) with
    | none =>
      rw [hfind] at hsucc
      simp at hsucc
    | some t =>
      exact ⟨t, List.mem_of_find?_eq_some hfind, List.find?_some hfind⟩
  · intro hnone
    rw [hnone]

/-- **C7 witness.** A token issued at T = 1000 (expiry T + 15 min = 1900)
does not match at T + 15 min + 1 s = 1901 even with the correct code: the
reset fails `InvalidOrExpiredCode` and the store is unchanged. -/
theorem C7_reset_requires_live_token_witness :
    resetPassword expiredTokenStore "asha@example.com" "654321" "Str0ng!Pass"
      (1000 + 15 * 60 + 1) "h1" = (ResetResult.invalidOrExpiredCode, expiredTokenStore) := by
  apply (C7_reset_requires_live_token expiredTokenStore "asha@example.com" "654321"
    "Str0ng!Pass" (1000 + 15 * 60 + 1) "h1" (by decide) (by decide)).2
  decide

/-- **C8.** A successful reset rewrites only the matched token row's
`isUsed` flag and only the target user's `passwordHash`/`updatedAt`: the
result stores are point-wise `map`s of the old ones, every token row with a
different id (including other live tokens for the same email) survives
unchanged, every user with a different email survives unchanged, and the
target user row changes in exactly those two fields. -/
theorem C8_reset_success_frame
    (st : AuthStore) (email code newPassword : String) (now : Nat) (newHash : String)
    (t0 : ResetTokenRow) (u0 : UserRow)
    (hcode : code.length = 6)
    (hstrong : (validatePasswordStrength newPassword.data).isValid = true)
    (htok : st.tokens.find? (tokenMatches email code now) = some t0)
    (husr : st.users.find? (fun u => u.email == email) = some u0) :
    (resetPassword st email code newPassword now newHash).1 = ResetResult.success ∧
    (resetPassword st email code newPassword now newHash).2.tokens =
      st.tokens.map (fun t => if t.id == t0.id then { t with isUsed := "1" } else t) ∧
    (resetPassword st email code newPassword now newHash).2.users =
      st.users.map (fun u =>
        if u.email == email then { u with passwordHash := newHash, updatedAt := now } else u) ∧
    (∀ t ∈ st.tokens, t.id ≠ t0.id →
      t ∈ (resetPassword st email code newPassword now newHash).2.tokens) ∧
    (∀ u ∈ st.users, u.email ≠ email →
      u ∈ (resetPassword st email code newPassword now newHash).2.users) ∧
    (∀ u ∈ st.users, u.email = email →
      { u with passwordHash := newHash, updatedAt := now } ∈
        (resetPassword st email code newPassword now newHash).2.users) := by
  have hlen : 8 ≤ newPassword.length := validatePasswordStrength_isValid_length hstrong
  have hred : resetPassword st email code newPassword now newHash =
      (ResetResult.success,
        { users := st.users.map (fun u =>
            if u.email == email then { u with passwordHash := newHash, updatedAt := now } else u)
          tokens := st.tokens.map (fun t =>
            if t.id == t0.id then { t with isUsed := "1" } else t) }) := by
    simp only [resetPassword]
    rw [if_neg (not_not_intro ⟨hcode, hlen⟩), if_neg (by simp [hstrong]), htok, husr]
  rw [hred]
  refine ⟨rfl, rfl, rfl, ?_, ?_, ?_⟩
  · intro t ht hne
    have heq : (if t.id == t0.id then ({ t with isUsed := "1" } : ResetTokenRow) else t) = t :=
      if_neg (by simpa using hne)
    exact heq ▸ List.mem_map_of_mem _ ht
  · intro u hu hne
    have heq : (if u.email == email then
        ({ u with passwordHash := newHash, updatedAt := now } : UserRow) else u) = u :=
      if_neg (by simpa using hne)
    exact heq ▸ List.mem_map_of_mem _ hu
  · intro u hu he
    have heq : (if u.email == email then
        ({ u with passwordHash := newHash, updatedAt := now } : UserRow) else u) =
        { u with passwordHash := newHash, updatedAt := now } :=
      if_pos (by simpa using he)
    exact heq ▸ List.mem_map_of_mem _ hu

/-- **C8 witness.** With two live tokens for the same email, resetting with
the first token's code succeeds and the second token row survives verbatim
(still unused and usable). -/
theorem C8_reset_success_frame_witness :
    (resetPassword liveTokenStore "asha@example.com" "654321" "Str0ng!Pass" 1500 "h1").1 =
      ResetResult.success ∧
    liveToken2 ∈
      (resetPassword liveTokenStore "asha@example.com" "654321" "Str0ng!Pass" 1500 "h1").2.tokens := by
  obtain ⟨h1, -, -, h4, -, -⟩ := C8_reset_success_frame liveTokenStore "asha@example.com"
    "654321" "Str0ng!Pass" 1500 "h1" liveToken1 demoUser
    (by decide) (by decide) (by decide) (by decide)
  exact ⟨h1, h4 liveToken2 (by decide) (by decide)⟩

/-- **C10.** When the user exists but the reset-code dispatch reports
failure, forgot-password returns `NotificationFailed`, yet the token row is
already inserted — unused, with the 15-minute expiry — and is not rolled
back; a subsequent reset with that code before expiry succeeds. -/
theorem C10_forgot_failure_keeps_token
    (st : AuthStore) (email code tokId newPassword newHash : String)
    (now now2 : Nat) (u0 : UserRow)
    (husr : st.users.find? (fun u => u.email == email) = some u0)
    (hcode : code.length = 6)
    (hstrong : (validatePasswordStrength newPassword.data).isValid = true)
    (hlater : now2 < now + 15 * 60) :
    (forgotPassword st email now code tokId false).1 = ForgotResult.notificationFailed ∧
    (forgotPassword st email now code tokId false).2.users = st.users ∧
    (forgotPassword st email now code tokId false).2.tokens =
      st.tokens ++ [freshToken email code tokId now] ∧
    (freshToken email code tokId now).isUsed = "0" ∧
    (freshToken email code tokId now).expiresAt = now + 15 * 60 ∧
    (resetPassword (forgotPassword st email now code tokId false).2
        email code newPassword now2 newHash).1 = ResetResult.success := by
  have hlen : 8 ≤ newPassword.length := validatePasswordStrength_isValid_length hstrong
  have hred : forgotPassword st email now code tokId false =
      (ForgotResult.notificationFailed,
        { users := st.users, tokens := st.tokens ++ [freshToken email code tokId now] }) := by
    simp only [forgotPassword, husr]
    rfl
  rw [hred]
  refine ⟨rfl, rfl, rfl, rfl, rfl, ?_⟩
  have htokmatch : tokenMatches email code now2 (freshToken email code tokId now) = true := by
    simp [tokenMatches, freshToken, hlater]
  have hfind : ∃ t, (st.tokens ++ [freshToken email code tokId now]).find?
      (tokenMatches email code now2) = some t := by
    rw [List.find?_append]
    cases h1 : st.tokens.find? (tokenMatches email code now2) with
    | some t => exact ⟨t, rfl⟩
    | none =>
      refine ⟨freshToken email code tokId now, ?_⟩
      rw [show List.find? (tokenMatches email code now2) [freshToken email code tokId now] =
          some (freshToken email code tokId now) by simp [List.find?, htokmatch]]
      rfl
  obtain ⟨t, ht⟩ := hfind
  simp only [resetPassword]
  rw [if_neg (not_not_intro ⟨hcode, hlen⟩), if_neg (by simp [hstrong]), ht, husr]

/-- **C10 witness.** With a failed dispatch at T = 1000, the token is
stored with expiry 1900 and the reset with the same code at time 1899
succeeds. -/
theorem C10_forgot_failure_keeps_token_witness :
    (forgotPassword forgotStore "asha@example.com" 1000 "246813" "t9" false).1 =
      ForgotResult.notificationFailed ∧
    (forgotPassword forgotStore "asha@example.com" 1000 "246813" "t9" false).2.tokens =
      forgotStore.tokens ++ [freshToken "asha@example.com" "246813" "t9" 1000] ∧
    (freshToken "asha@example.com" "246813" "t9" 1000).isUsed = "0" ∧
    (resetPassword (forgotPassword forgotStore "asha@example.com" 1000 "246813" "t9" false).2
        "asha@example.com" "246813" "Str0ng!Pass" 1899 "h1").1 = ResetResult.success := by
  obtain ⟨h1, -, h3, h4, -, h6⟩ := C10_forgot_failure_keeps_token forgotStore "asha@example.com"
    "246813" "t9" "Str0ng!Pass" "h1" 1000 1899 demoUser
    (by decide) (by decide) (by decide) (by decide)
  exact ⟨h1, h3, h4, h6⟩

end GripInvest

namespace GripInvest

/-! ### Portfolio helper lemmas -/

theorem insertDesc_perm (x : JoinedInvestment) (l : List JoinedInvestment) :
    (insertDesc x l).Perm (x :: l) := by
  induction l with
  | nil => exact List.Perm.refl _
  | cons y ys ih =>
    simp only [insertDesc]
    split
    · exact List.Perm.refl _
    · exact (ih.cons y).trans (List.Perm.swap x y ys)

theorem sortByInvestedAtDesc_perm (l : List JoinedInvestment) :
    (sortByInvestedAtDesc l).Perm l := by
  induction l with
  | nil => exact List.Perm.refl _
  | cons x xs ih => exact (insertDesc_perm x _).trans (ih.cons x)

theorem foldl_add_eq_sum_map {α : Type*} (f : α → Rat) (l : List α) :
    l.foldl (fun s a => s + f a) 0 = (l.map f).sum := by
  rw [List.sum_eq_foldl, List.foldl_map]

theorem filterMap_joinRow_map {β : Type*} (ps : List InvestmentProduct)
    (l : List InvestmentRow) (g : JoinedInvestment → β) (g' : InvestmentRow → β)
    (h : ∀ r ∈ l, (ps.find? (fun p => p.id == r.productId)).isSome)
    (hg : ∀ (r : InvestmentRow) (p : InvestmentProduct),
      g { id := r.id, amount := r.amount, investedAt := r.investedAt
          status := r.status, expectedReturn := r.expectedReturn, product := p } = g' r) :
    (l.filterMap (joinRow ps)).map g = l.map g' := by
  induction l with
  | nil => rfl
  | cons x xs ih =>
    obtain ⟨p, hp⟩ := Option.isSome_iff_exists.mp (h x (List.mem_cons_self x xs))
    have hjx : joinRow ps x =
        some { id := x.id, amount := x.amount, investedAt := x.investedAt
               status := x.status, expectedReturn := x.expectedReturn, product := p } := by
      rw [joinRow, hp]; rfl
    rw [List.filterMap_cons_some hjx, List.map_cons, List.map_cons, hg,
      ih (fun r hr => h r (List.mem_cons_of_mem x hr))]

theorem filter_filterMap_joinRow (ps : List InvestmentProduct) (l : List InvestmentRow)
    (q : JoinedInvestment → Bool) (q' : InvestmentRow → Bool)
    (hq : ∀ (r : InvestmentRow) (p : InvestmentProduct),
      q { id := r.id, amount := r.amount, investedAt := r.investedAt
          status := r.status, expectedReturn := r.expectedReturn, product := p } = q' r) :
    (l.filterMap (joinRow ps)).filter q = (l.filter q').filterMap (joinRow ps) := by
  induction l with
  | nil => rfl
  | cons x xs ih =>
    cases hjx : joinRow ps x with
    | none =>
      by_cases hq'x : q' x = true
      · rw [List.filterMap_cons_none hjx, List.filter_cons_of_pos hq'x,
          List.filterMap_cons_none hjx, ih]
      · rw [List.filterMap_cons_none hjx, List.filter_cons_of_neg hq'x, ih]
    | some b =>
      have hjx' := hjx
      rw [joinRow] at hjx
      obtain ⟨p, hp, hb⟩ := Option.map_eq_some'.mp hjx
      have hqb : q b = q' x := by rw [← hb]; exact hq x p
      by_cases hq'x : q' x = true
      · rw [List.filterMap_cons_some hjx', List.filter_cons_of_pos (by rw [hqb]; exact hq'x),
          List.filter_cons_of_pos hq'x, List.filterMap_cons_some hjx', ih]
      · rw [List.filterMap_cons_some hjx', List.filter_cons_of_neg (by rw [hqb]; exact hq'x),
          List.filter_cons_of_neg hq'x, ih]

theorem lookup_cons_eq {β : Type*} (k a1 : String) (a2 : β) (l : List (String × β))
    (h : k = a1) : List.lookup k ((a1, a2) :: l) = some a2 := by
  rw [List.lookup_cons, show (k == a1) = true by simp [h]]

theorem lookup_cons_ne {β : Type*} (k a1 : String) (a2 : β) (l : List (String × β))
    (h : k ≠ a1) : List.lookup k ((a1, a2) :: l) = List.lookup k l := by
  rw [List.lookup_cons, show (k == a1) = false by simp [h]]

theorem lookup_map_update (m : List (String × Rat)) (k : String) (v : Rat) :
    (m.map (fun kv => if kv.1 == k then (kv.1, kv.2 + v) else kv)).lookup k =
      (m.lookup k).map (fun w => w + v) := by
  induction m with
  | nil => rfl
  | cons a m ih =>
    obtain ⟨a1, a2⟩ := a
    by_cases hak : a1 = k
    · rw [List.map_cons, show (if ((a1, a2) : String × Rat).1 == k then (a1, a2 + v) else (a1, a2))
          = (a1, a2 + v) by simp [hak],
        lookup_cons_eq k a1 (a2 + v) _ hak.symm, lookup_cons_eq k a1 a2 _ hak.symm]
      rfl
    · rw [List.map_cons, show (if ((a1, a2) : String × Rat).1 == k then (a1, a2 + v) else (a1, a2))
          = (a1, a2) by simp [hak],
        lookup_cons_ne k a1 a2 _ (fun hk => hak hk.symm),
        lookup_cons_ne k a1 a2 _ (fun hk => hak hk.symm), ih]

theorem any_fst_eq_lookup_isSome (m : List (String × Rat)) (k : String) :
    m.any (fun kv => kv.1 == k) = (m.lookup k).isSome := by
  induction m with
  | nil => rfl
  | cons a m ih =>
    obtain ⟨a1, a2⟩ := a
    by_cases hak : a1 = k
    · rw [lookup_cons_eq k a1 a2 _ hak.symm]
      simp [hak]
    · rw [lookup_cons_ne k a1 a2 _ (fun hk => hak hk.symm)]
      simp [hak, ih]

theorem lookup_append {β : Type*} (m1 m2 : List (String × β)) (k : String) :
    (m1 ++ m2).lookup k = (m1.lookup k).or (m2.lookup k) := by
  induction m1 with
  | nil => rfl
  | cons a m ih =>
    obtain ⟨a1, a2⟩ := a
    by_cases hak : k = a1
    · rw [List.cons_append, lookup_cons_eq k a1 a2 _ hak, lookup_cons_eq k a1 a2 _ hak]
      rfl
    · rw [List.cons_append, lookup_cons_ne k a1 a2 _ hak, lookup_cons_ne k a1 a2 _ hak, ih]

theorem bumpKey_lookup_self (m : List (String × Rat)) (k : String) (v : Rat) :
    (bumpKey m k v).lookup k = some ((m.lookup k).getD 0 + v) := by
  unfold bumpKey
  by_cases h : m.any (fun kv => kv.1 == k) = true
  · rw [if_pos h, lookup_map_update]
    rw [any_fst_eq_lookup_isSome] at h
    obtain ⟨w, hw⟩ := Option.isSome_iff_exists.mp h
    rw [hw]
    rfl
  · rw [if_neg h]
    rw [any_fst_eq_lookup_isSome] at h
    have hnone : m.lookup k = none := by
      cases hm : m.lookup k with
      | none => rfl
      | some w => rw [hm] at h; simp at h
    rw [lookup_append, hnone, lookup_cons_eq k k v [] rfl]
    norm_num

theorem lookup_map_update_ne (m : List (String × Rat)) (k k' : String) (v : Rat)
    (h : k' ≠ k) :
    (m.map (fun kv => if kv.1 == k' then (kv.1, kv.2 + v) else kv)).lookup k = m.lookup k := by
  induction m with
  | nil => rfl
  | cons a m ih =>
    obtain ⟨a1, a2⟩ := a
    by_cases hak : a1 = k'
    · rw [List.map_cons, show (if ((a1, a2) : String × Rat).1 == k' then (a1, a2 + v)
          else (a1, a2)) = (a1, a2 + v) by simp [hak],
        lookup_cons_ne k a1 (a2 + v) _ (fun hk => h (by rw [← hak, ← hk])),
        lookup_cons_ne k a1 a2 _ (fun hk => h (by rw [← hak, ← hk])), ih]
    · rw [List.map_cons, show (if ((a1, a2) : String × Rat).1 == k' then (a1, a2 + v)
          else (a1, a2)) = (a1, a2) by simp [hak]]
      by_cases hk : k = a1
      · rw [lookup_cons_eq k a1 a2 _ hk, lookup_cons_eq k a1 a2 _ hk]
      · rw [lookup_cons_ne k a1 a2 _ hk, lookup_cons_ne k a1 a2 _ hk, ih]

theorem bumpKey_lookup_ne (m : List (String × Rat)) (k k' : String) (v : Rat)
    (h : k' ≠ k) : (bumpKey m k' v).lookup k = m.lookup k := by
  unfold bumpKey
  split
  · exact lookup_map_update_ne m k k' v h
  · rw [lookup_append, lookup_cons_ne k k' v [] (fun hk => h hk.symm),
      show List.lookup k ([] : List (String × Rat)) = none from rfl, Option.or_none]

theorem accum_foldl_lookup (key : JoinedInvestment → String) (k : String) (hk : k ≠ "")
    (rows : List JoinedInvestment) :
    ∀ m : List (String × Rat),
    ((rows.foldl (fun m inv => if key inv ≠ "" then bumpKey m (key inv) inv.amount else m)
        m).lookup k)
      = if (rows.filter (fun r => key r == k)).isEmpty then m.lookup k
        else some ((m.lookup k).getD 0 +
          ((rows.filter (fun r => key r == k)).map (fun r => r.amount)).sum) := by
  induction rows with
  | nil => intro m; simp
  | cons r rows ih =>
    intro m
    rw [List.foldl_cons]
    by_cases hrk : key r = k
    · have hne : key r ≠ "" := by rw [hrk]; exact hk
      rw [if_pos hne, hrk, ih (bumpKey m k r.amount),
        List.filter_cons_of_pos (by simp [hrk]), bumpKey_lookup_self]
      by_cases hrest : (rows.filter (fun x => key x == k)).isEmpty = true
      · rw [if_pos hrest, if_neg (by simp), List.isEmpty_iff.mp hrest]
        simp
      · rw [if_neg hrest, if_neg (by simp)]
        simp [add_assoc]
    · by_cases hempty : key r = ""
      · rw [if_neg (by simp [hempty]), ih m,
          List.filter_cons_of_neg (by simp [hempty]; exact fun habs => hk habs.symm)]
      · rw [if_pos hempty, ih (bumpKey m (key r) r.amount),
          bumpKey_lookup_ne m k (key r) r.amount hrk,
          List.filter_cons_of_neg (by simp [hrk])]

theorem accumDistribution_lookup (key : JoinedInvestment → String)
    (rows : List JoinedInvestment) (k : String) (hk : k ≠ "") :
    (accumDistribution key rows).lookup k =
      if (rows.filter (fun r => key r == k)).isEmpty then none
      else some (((rows.filter (fun r => key r == k)).map (fun r => r.amount)).sum) := by
  unfold accumDistribution
  rw [accum_foldl_lookup key k hk rows []]
  split
  · rfl
  · simp

end GripInvest

namespace GripInvest

/-- **C3.** The portfolio summary totals: `totalInvested` sums `amount`
over all the user's investments regardless of status,
`totalExpectedReturn` sums `expectedReturn` (null counted as 0) over the
active ones only, and `averageYield` is the arithmetic mean of the joined
products' `annualYield` over all the user's investments, 0 on an empty
list.  The integrity hypothesis says every investment's product reference
resolves (the schema's foreign key guarantees this). -/
theorem C3_portfolio_summary
    (st : InvestStore) (uid : String)
    (hinteg : ∀ r ∈ st.investments, r.userId = uid →
      (st.products.find? (fun p => p.id == r.productId)).isSome = true) :
    ∃ invs summary, getPortfolio st (some uid) = some (invs, summary) ∧
      summary.totalInvested =
        ((st.investments.filter (fun r => r.userId == uid)).map (fun r => r.amount)).sum ∧
      summary.totalExpectedReturn =
        (((st.investments.filter (fun r => r.userId == uid)).filter
            (fun r => r.status == "active")).map (fun r => r.expectedReturn.getD 0)).sum ∧
      (userJoinedRows st uid = [] → summary.averageYield = 0) ∧
      (userJoinedRows st uid ≠ [] →
        summary.averageYield =
          ((userJoinedRows st uid).map (fun j => j.product.annualYield)).sum /
            ((userJoinedRows st uid).length : Rat)) := by
  have hintegF : ∀ r ∈ st.investments.filter (fun r => r.userId == uid),
      (st.products.find? (fun p => p.id == r.productId)).isSome = true := by
    intro r hr
    exact hinteg r (List.mem_of_mem_filter hr) (by simpa using List.of_mem_filter hr)
  have hperm : (sortByInvestedAtDesc (userJoinedRows st uid)).Perm (userJoinedRows st uid) :=
    sortByInvestedAtDesc_perm _
  refine ⟨_, _, rfl, ?_, ?_, ?_, ?_⟩
  · show (sortByInvestedAtDesc (userJoinedRows st uid)).foldl
        (fun s inv => s + inv.amount) 0 = _
    rw [foldl_add_eq_sum_map (fun j : JoinedInvestment => j.amount)
        (sortByInvestedAtDesc (userJoinedRows st uid)),
      List.Perm.sum_eq (hperm.map (fun j : JoinedInvestment => j.amount)), userJoinedRows,
      filterMap_joinRow_map st.products _ (fun j : JoinedInvestment => j.amount)
        (fun r : InvestmentRow => r.amount) hintegF (fun r p => rfl)]
  · show ((sortByInvestedAtDesc (userJoinedRows st uid)).filter
        (fun inv => inv.status == "active")).foldl
          (fun s inv => s + inv.expectedReturn.getD 0) 0 = _
    rw [foldl_add_eq_sum_map (fun j : JoinedInvestment => j.expectedReturn.getD 0)
        ((sortByInvestedAtDesc (userJoinedRows st uid)).filter
          (fun inv => inv.status == "active")),
      List.Perm.sum_eq ((hperm.filter (fun inv => inv.status == "active")).map
        (fun j : JoinedInvestment => j.expectedReturn.getD 0)), userJoinedRows,
      filter_filterMap_joinRow st.products _ (fun j : JoinedInvestment => j.status == "active")
        (fun r : InvestmentRow => r.status == "active") (fun r p => rfl),
      filterMap_joinRow_map st.products _
        (fun j : JoinedInvestment => j.expectedReturn.getD 0)
        (fun r : InvestmentRow => r.expectedReturn.getD 0)
        (fun r hr => hintegF r (List.mem_of_mem_filter hr)) (fun r p => rfl)]
  · intro hnil
    show (if 0 < (sortByInvestedAtDesc (userJoinedRows st uid)).length then
        (sortByInvestedAtDesc (userJoinedRows st uid)).foldl
          (fun s inv => s + inv.product.annualYield) 0
          / ((sortByInvestedAtDesc (userJoinedRows st uid)).length : Rat)
      else 0) = 0
    have hlen : (sortByInvestedAtDesc (userJoinedRows st uid)).length = 0 := by
      rw [hperm.length_eq, hnil]
      rfl
    rw [hlen]
    norm_num
  · intro hne
    show (if 0 < (sortByInvestedAtDesc (userJoinedRows st uid)).length then
        (sortByInvestedAtDesc (userJoinedRows st uid)).foldl
          (fun s inv => s + inv.product.annualYield) 0
          / ((sortByInvestedAtDesc (userJoinedRows st uid)).length : Rat)
      else 0) = _
    rw [if_pos (by rw [hperm.length_eq]; exact List.length_pos.mpr hne),
      foldl_add_eq_sum_map (fun j : JoinedInvestment => j.product.annualYield)
        (sortByInvestedAtDesc (userJoinedRows st uid)),
      List.Perm.sum_eq (hperm.map (fun j : JoinedInvestment => j.product.annualYield)),
      hperm.length_eq]

/-- **C3 witness.** The two-investment scenario: totalInvested 3000,
totalExpectedReturn 540 (60 + 480, both active), averageYield (6+12)/2 = 9. -/
theorem C3_portfolio_summary_witness :
    ∃ invs summary, getPortfolio scenarioStore (some "u1") = some (invs, summary) ∧
      summary.totalInvested = 3000 ∧
      summary.totalExpectedReturn = 540 ∧
      summary.averageYield = 9 := by
  obtain ⟨invs, summary, h1, h2, h3, -, h5⟩ := C3_portfolio_summary scenarioStore "u1"
    (by
      intro r hr hu
      simp only [scenarioStore, List.mem_cons, List.not_mem_nil, or_false] at hr
      rcases hr with rfl | rfl <;> rfl)
  have hjoined : userJoinedRows scenarioStore "u1" = [scenarioJoinedA, scenarioJoinedB] := rfl
  refine ⟨invs, summary, h1, ?_, ?_, ?_⟩
  · rw [h2, show (scenarioStore.investments.filter (fun r => r.userId == "u1")).map
        (fun r => r.amount) = [(1000 : Rat), 2000] from rfl]
    norm_num [List.sum_cons, List.sum_nil]
  · rw [h3, show ((scenarioStore.investments.filter (fun r => r.userId == "u1")).filter
        (fun r => r.status == "active")).map (fun r => r.expectedReturn.getD 0)
          = [(60 : Rat), 480] from rfl]
    norm_num [List.sum_cons, List.sum_nil]
  · rw [h5 (by rw [hjoined]; simp), hjoined,
      show ([scenarioJoinedA, scenarioJoinedB].map (fun j => j.product.annualYield))
        = [(6 : Rat), 12] from rfl,
      show ([scenarioJoinedA, scenarioJoinedB] : List JoinedInvestment).length = 2 from rfl]
    norm_num [List.sum_cons, List.sum_nil]

/-- **C4.** The risk distribution (and analogously the type distribution)
maps a key to the sum of `amount` over exactly the user's joined
investments whose product carries that risk level (investment type), and
the key is present iff at least one such investment exists. -/
theorem C4_distributions (st : InvestStore) (uid k : String) (hk : k ≠ "") :
    ∃ invs summary, getPortfolio st (some uid) = some (invs, summary) ∧
      ((summary.riskDistribution.lookup k).isSome = true ↔
        ∃ j ∈ userJoinedRows st uid, j.product.riskLevel = k) ∧
      (∀ v, summary.riskDistribution.lookup k = some v →
        v = (((userJoinedRows st uid).filter (fun j => j.product.riskLevel == k)).map
              (fun j => j.amount)).sum) ∧
      ((summary.typeDistribution.lookup k).isSome = true ↔
        ∃ j ∈ userJoinedRows st uid, j.product.investmentType = k) ∧
      (∀ v, summary.typeDistribution.lookup k = some v →
        v = (((userJoinedRows st uid).filter (fun j => j.product.investmentType == k)).map
              (fun j => j.amount)).sum) := by
  have hperm := sortByInvestedAtDesc_perm (userJoinedRows st uid)
  have hrisk := accumDistribution_lookup (fun inv => inv.product.riskLevel)
    (sortByInvestedAtDesc (userJoinedRows st uid)) k hk
  have htype := accumDistribution_lookup (fun inv => inv.product.investmentType)
    (sortByInvestedAtDesc (userJoinedRows st uid)) k hk
  refine ⟨_, _, rfl, ?_, ?_, ?_, ?_⟩
  · show (List.lookup k (accumDistribution (fun inv => inv.product.riskLevel)
        (sortByInvestedAtDesc (userJoinedRows st uid)))).isSome = true ↔
      ∃ j ∈ userJoinedRows st uid, j.product.riskLevel = k
    rw [hrisk]
    by_cases hempty : ((sortByInvestedAtDesc (userJoinedRows st uid)).filter
        (fun r => r.product.riskLevel == k)).isEmpty = true
    · rw [if_pos hempty]
      rw [List.isEmpty_iff, List.filter_eq_nil_iff] at hempty
      refine iff_of_false (by simp) ?_
      rintro ⟨j, hj, hjk⟩
      exact hempty j (hperm.mem_iff.mpr hj) (by simp [hjk])
    · rw [if_neg hempty]
      refine iff_of_true (by simp) ?_
      have hnenil : (sortByInvestedAtDesc (userJoinedRows st uid)).filter
          (fun r => r.product.riskLevel == k) ≠ [] := by
        intro hnil
        rw [hnil] at hempty
        exact hempty rfl
      obtain ⟨a, ha⟩ := List.exists_mem_of_ne_nil _ hnenil
      obtain ⟨hmem, hpred⟩ := List.mem_filter.mp ha
      exact ⟨a, hperm.mem_iff.mp hmem, by simpa using hpred⟩
  · show ∀ v, List.lookup k (accumDistribution (fun inv => inv.product.riskLevel)
        (sortByInvestedAtDesc (userJoinedRows st uid))) = some v →
      v = (((userJoinedRows st uid).filter (fun j => j.product.riskLevel == k)).map
            (fun j => j.amount)).sum
    intro v hv
    rw [hrisk] at hv
    by_cases hempty : ((sortByInvestedAtDesc (userJoinedRows st uid)).filter
        (fun r => r.product.riskLevel == k)).isEmpty = true
    · rw [if_pos hempty] at hv
      cases hv
    · rw [if_neg hempty] at hv
      exact (Option.some.inj hv).symm.trans (List.Perm.sum_eq
        ((hperm.filter (fun j => j.product.riskLevel == k)).map
          (fun j : JoinedInvestment => j.amount)))
  · show (List.lookup k (accumDistribution (fun inv => inv.product.investmentType)
        (sortByInvestedAtDesc (userJoinedRows st uid)))).isSome = true ↔
      ∃ j ∈ userJoinedRows st uid, j.product.investmentType = k
    rw [htype]
    by_cases hempty : ((sortByInvestedAtDesc (userJoinedRows st uid)).filter
        (fun r => r.product.investmentType == k)).isEmpty = true
    · rw [if_pos hempty]
      rw [List.isEmpty_iff, List.filter_eq_nil_iff] at hempty
      refine iff_of_false (by simp) ?_
      rintro ⟨j, hj, hjk⟩
      exact hempty j (hperm.mem_iff.mpr hj) (by simp [hjk])
    · rw [if_neg hempty]
      refine iff_of_true (by simp) ?_
      have hnenil : (sortByInvestedAtDesc (userJoinedRows st uid)).filter
          (fun r => r.product.investmentType == k) ≠ [] := by
        intro hnil
        rw [hnil] at hempty
        exact hempty rfl
      obtain ⟨a, ha⟩ := List.exists_mem_of_ne_nil _ hnenil
      obtain ⟨hmem, hpred⟩ := List.mem_filter.mp ha
      exact ⟨a, hperm.mem_iff.mp hmem, by simpa using hpred⟩
  · show ∀ v, List.lookup k (accumDistribution (fun inv => inv.product.investmentType)
        (sortByInvestedAtDesc (userJoinedRows st uid))) = some v →
      v = (((userJoinedRows st uid).filter (fun j => j.product.investmentType == k)).map
            (fun j => j.amount)).sum
    intro v hv
    rw [htype] at hv
    by_cases hempty : ((sortByInvestedAtDesc (userJoinedRows st uid)).filter
        (fun r => r.product.investmentType == k)).isEmpty = true
    · rw [if_pos hempty] at hv
      cases hv
    · rw [if_neg hempty] at hv
      exact (Option.some.inj hv).symm.trans (List.Perm.sum_eq
        ((hperm.filter (fun j => j.product.investmentType == k)).map
          (fun j : JoinedInvestment => j.amount)))

/-- **C4 witness.** In the two-investment scenario the risk distribution
holds exactly the two observed risk levels: "low" maps to 1000 and "high"
to 2000 (summing to the 3000 total). -/
theorem C4_distributions_witness :
    ∃ invs summary, getPortfolio scenarioStore (some "u1") = some (invs, summary) ∧
      summary.riskDistribution.lookup "low" = some 1000 ∧
      summary.riskDistribution.lookup "high" = some 2000 := by
  obtain ⟨invs, summary, h1, hiffL, hvalL, -, -⟩ :=
    C4_distributions scenarioStore "u1" "low" (by decide)
  obtain ⟨invs2, summary2, h1b, hiffH, hvalH, -, -⟩ :=
    C4_distributions scenarioStore "u1" "high" (by decide)
  rw [h1] at h1b
  have hpair := Option.some.inj h1b
  obtain ⟨rfl, rfl⟩ : invs = invs2 ∧ summary = summary2 :=
    ⟨congrArg Prod.fst hpair, congrArg Prod.snd hpair⟩
  have hjoined : userJoinedRows scenarioStore "u1" = [scenarioJoinedA, scenarioJoinedB] := rfl
  refine ⟨invs, summary, h1, ?_, ?_⟩
  · have hsome : (summary.riskDistribution.lookup "low").isSome = true :=
      hiffL.mpr ⟨scenarioJoinedA,
        (by rw [hjoined]; exact List.mem_cons_self _ _), rfl⟩
    obtain ⟨v, hv⟩ := Option.isSome_iff_exists.mp hsome
    have hvv : v = 1000 := by
      rw [hvalL v hv, hjoined, show ([scenarioJoinedA, scenarioJoinedB].filter
          (fun j => j.product.riskLevel == "low")).map (fun j => j.amount)
            = [(1000 : Rat)] from rfl]
      norm_num [List.sum_cons, List.sum_nil]
    rw [hv, hvv]
  · have hsome : (summary.riskDistribution.lookup "high").isSome = true :=
      hiffH.mpr ⟨scenarioJoinedB,
        (by rw [hjoined]; exact List.mem_cons_of_mem _ (List.mem_cons_self _ _)), rfl⟩
    obtain ⟨v, hv⟩ := Option.isSome_iff_exists.mp hsome
    have hvv : v = 2000 := by
      rw [hvalH v hv, hjoined, show ([scenarioJoinedA, scenarioJoinedB].filter
          (fun j => j.product.riskLevel == "high")).map (fun j => j.amount)
            = [(2000 : Rat)] from rfl]
      norm_num [List.sum_cons, List.sum_nil]
    rw [hv, hvv]

end GripInvest
